import Mathlib

/-!
CTriangle, the rotating triangle demo.

A shallow embedding of `src/inclassc++.cpp`: the globals that control the
rotation, `processInput`, the body of the render loop of `main`, the render
loop itself and the setup part of `main`.

Conventions of the embedding.

* The C++ `float` values (angle, speed, `lastTime`, `deltaTime`) are elements
  of a type `α` of which the definitions use only the operations `+`, `-`,
  `*`, `/`, `0` and `1`, with no law assumed: the program's own rounded
  binary32 operations are one instance.  `Float32` below is that instance
  (round to nearest, ties to even); exact arithmetic (the reals) is another.
* The `double` returned by `glfwGetTime` is an element of a type `δ`, and the
  narrowing conversion to `float` is the function `Platform.toFloat`.
* Everything the program reads from the outside world is an explicit input:
  the key states returned by `glfwGetKey`, the clock value returned by
  `glfwGetTime`, the close request delivered by `glfwPollEvents`, and the
  outcomes of the setup calls.
* The `while` loop consumes one `FrameInput` per iteration, so a finite list
  of inputs describes a finite run (or a finite beginning of a longer one).
-/

namespace CTriangle

/-! ## GLFW collaborator -/

/-- The two values `glfwGetKey` can return for a key. -/
inductive KeyState where
  | GLFW_RELEASE
  | GLFW_PRESS
  deriving DecidableEq, Repr

open KeyState

/-! ## GLM collaborator -/

namespace glm

/-- The scalar functions of the C math library that GLM calls. -/
structure ScalarFns (α : Type) where
  cos : α → α
  sin : α → α
  sqrt : α → α

/-- A `glm::vec3`. -/
structure vec3 (α : Type) where
  x : α
  y : α
  z : α
  deriving DecidableEq, Repr

/-- A `glm::vec4`. -/
structure vec4 (α : Type) where
  x : α
  y : α
  z : α
  w : α
  deriving DecidableEq, Repr

/-- A `glm::mat4`: four columns (GLM matrices are column-major, `m[i]` is
column `i`). -/
structure mat4 (α : Type) where
  c0 : vec4 α
  c1 : vec4 α
  c2 : vec4 α
  c3 : vec4 α
  deriving DecidableEq, Repr

variable {α : Type}

/-- Component `i` of a `vec4` (`v[i]`). -/
def vec4.get (v : vec4 α) : Fin 4 → α
  | 0 => v.x
  | 1 => v.y
  | 2 => v.z
  | 3 => v.w

/-- Column `i` of a matrix (`m[i]`). -/
def mat4.col (m : mat4 α) : Fin 4 → vec4 α
  | 0 => m.c0
  | 1 => m.c1
  | 2 => m.c2
  | 3 => m.c3

/-- The entry in row `i` and column `j` of the matrix, in the usual
mathematical convention (`m[j][i]` in GLM). -/
def mat4.entry (m : mat4 α) (i j : Fin 4) : α :=
  (m.col j).get i

/-- The product `v * s` of a `vec3` by a scalar. -/
def vec3.scale [Mul α] (v : vec3 α) (s : α) : vec3 α :=
  ⟨v.x * s, v.y * s, v.z * s⟩

/-- The product `s * v` of a scalar by a `vec3`. -/
def vec3.lscale [Mul α] (s : α) (v : vec3 α) : vec3 α :=
  ⟨s * v.x, s * v.y, s * v.z⟩

/-- The product `v * s` of a `vec4` by a scalar. -/
def vec4.scale [Mul α] (v : vec4 α) (s : α) : vec4 α :=
  ⟨v.x * s, v.y * s, v.z * s, v.w * s⟩

/-- The sum `u + v` of two `vec4`. -/
def vec4.add [Add α] (u v : vec4 α) : vec4 α :=
  ⟨u.x + v.x, u.y + v.y, u.z + v.z, u.w + v.w⟩

/-- The constructor `glm::mat4(s)`: `s` on the diagonal, zero elsewhere. -/
def mat4.ofScalar [Zero α] (s : α) : mat4 α :=
  ⟨⟨s, 0, 0, 0⟩, ⟨0, s, 0, 0⟩, ⟨0, 0, s, 0⟩, ⟨0, 0, 0, s⟩⟩

/-- Modelled from the spec: `glm::dot` is library code that is not part of
the sources; the dot product of two `vec3`. -/
def dot [Add α] [Mul α] (u v : vec3 α) : α :=
  u.x * v.x + u.y * v.y + u.z * v.z

/-- Modelled from the spec: `glm::inversesqrt` is library code that is not
part of the sources; `1 / sqrt x`. -/
def inversesqrt [One α] [Div α] (F : ScalarFns α) (x : α) : α :=
  1 / F.sqrt x

/-- Modelled from the spec: `glm::normalize` is library code that is not part
of the sources; `v * inversesqrt(dot(v, v))`. -/
def normalize [Add α] [Mul α] [One α] [Div α] (F : ScalarFns α) (v : vec3 α) : vec3 α :=
  v.scale (inversesqrt F (dot v v))

/-- Modelled from the spec: `glm::rotate(m, angle, v)` is library code that is
not part of the sources.  The spec describes its result as "a rotation
transform around the Z axis by `angle` radians, composed with identity" for
the one call the program makes; the definition is the library's axis-angle
construction `m * R(normalize v, angle)`, of which that call is an instance. -/
def rotate [Add α] [Sub α] [Mul α] [Div α] [One α] (F : ScalarFns α) (m : mat4 α)
    (angle : α) (v : vec3 α) : mat4 α :=
  let a := angle
  let c := F.cos a
  let s := F.sin a
  let axis := normalize F v
  let temp := vec3.lscale (1 - c) axis
  let r00 := c + temp.x * axis.x
  let r01 := temp.x * axis.y + s * axis.z
  let r02 := temp.x * axis.z - s * axis.y
  let r10 := temp.y * axis.x - s * axis.z
  let r11 := c + temp.y * axis.y
  let r12 := temp.y * axis.z + s * axis.x
  let r20 := temp.z * axis.x + s * axis.y
  let r21 := temp.z * axis.y - s * axis.x
  let r22 := c + temp.z * axis.z
  { c0 := ((m.c0.scale r00).add (m.c1.scale r01)).add (m.c2.scale r02)
    c1 := ((m.c0.scale r10).add (m.c1.scale r11)).add (m.c2.scale r12)
    c2 := ((m.c0.scale r20).add (m.c1.scale r21)).add (m.c2.scale r22)
    c3 := m.c3 }

end glm

/-! ## Program state -/

/-- The mutable state of the program that the render loop reads and writes:
the three rotation globals, the `static` debounce flag of `processInput`, the
local `lastTime` of `main`, and the should-close flag of the GLFW window. -/
structure App (α : Type) where
  isRotating : Bool
  rotationAngle : α
  rotationSpeed : α
  isSpacePressed : Bool
  lastTime : α
  windowShouldClose : Bool
  deriving DecidableEq, Repr

/-- What one iteration of the render loop reads from the outside world: the
escape and space key states seen by `processInput`, the `double` returned by
`glfwGetTime()`, and whether `glfwPollEvents()` delivers a close request for
the window. -/
structure FrameInput (δ : Type) where
  escape : KeyState
  space : KeyState
  currentTime : δ
  closeRequested : Bool
  deriving DecidableEq, Repr

/-- What the platform provides to the program besides the `float` operations:
the math functions GLM calls, and the conversion of a `double` to `float`
(`float x = glfwGetTime();`). -/
structure Platform (δ α : Type) extends glm.ScalarFns α where
  toFloat : δ → α

variable {α δ : Type}

/-- The state when the render loop is first reached: the globals have their
initialisers (`isRotating = true`, `rotationAngle = 0.0f`,
`rotationSpeed = 1.0f`), the static `isSpacePressed` is `false`, `lastTime`
is the clock value `t0` read just before the loop, and the new window has no
close request. -/
def initialApp [Zero α] [One α] (t0 : α) : App α :=
  { isRotating := true
    rotationAngle := 0
    rotationSpeed := 1
    isSpacePressed := false
    lastTime := t0
    windowShouldClose := false }

/-- The call `glfwSetWindowShouldClose(window, value)`. -/
def glfwSetWindowShouldClose (s : App α) (value : Bool) : App α :=
  { s with windowShouldClose := value }

/-- The function `processInput`.  `escape` and `space` are the values
`glfwGetKey` returns for the two keys; the two reads of the space key in one
call see the same value, because key state only changes in `glfwPollEvents`. -/
def processInput (s : App α) (escape space : KeyState) : App α :=
  let s := if escape = GLFW_PRESS then glfwSetWindowShouldClose s true else s
  if space = GLFW_PRESS ∧ ¬ s.isSpacePressed then
    { s with isSpacePressed := true, isRotating := false }
  else if space = GLFW_RELEASE then
    { s with isSpacePressed := false, isRotating := true }
  else s

/-- The angle update of the loop body:
`if (isRotating) rotationAngle += rotationSpeed * deltaTime;`. -/
def updateRotation [Add α] [Mul α] (s : App α) (deltaTime : α) : App α :=
  if s.isRotating then
    { s with rotationAngle := s.rotationAngle + s.rotationSpeed * deltaTime }
  else s

/-- The call `glfwPollEvents()`, as far as the program can observe it: a close
request sets the should-close flag.  The only callback the program registers,
`framebuffer_size_callback`, touches none of the state. -/
def glfwPollEvents (s : App α) (closeRequested : Bool) : App α :=
  if closeRequested then { s with windowShouldClose := true } else s

/-- One iteration of the render loop of `main`.  Returns the state at the end
of the iteration and the matrix submitted as the `transform` uniform. -/
def frame [Add α] [Sub α] [Mul α] [Div α] [Zero α] [One α] (P : Platform δ α)
    (s : App α) (inp : FrameInput δ) : App α × glm.mat4 α :=
  let s := processInput s inp.escape inp.space
  let currentTime : α := P.toFloat inp.currentTime
  let deltaTime := currentTime - s.lastTime
  let s := { s with lastTime := currentTime }
  let transform : glm.mat4 α := glm.mat4.ofScalar 1
  let s := updateRotation s deltaTime
  let transform := glm.rotate P.toScalarFns transform s.rotationAngle ⟨0, 0, 1⟩
  let s := glfwPollEvents s inp.closeRequested
  (s, transform)

/-- The trace of one executed iteration of the render loop. -/
structure FrameRecord (δ α : Type) where
  before : App α
  input : FrameInput δ
  after : App α
  transform : glm.mat4 α

/-- The render loop `while (!glfwWindowShouldClose(window)) { ... }` run on a
list of frame inputs.  Returns the state when the loop stops (because the
should-close flag is set, or because the inputs are used up) and the trace of
the iterations that were executed. -/
def renderLoop [Add α] [Sub α] [Mul α] [Div α] [Zero α] [One α] (P : Platform δ α) :
    App α → List (FrameInput δ) → App α × List (FrameRecord δ α)
  | s, [] => (s, [])
  | s, inp :: rest =>
    if s.windowShouldClose then (s, [])
    else
      let r := frame P s inp
      let out := renderLoop P r.1 rest
      (out.1, ⟨s, inp, r.1, r.2⟩ :: out.2)

/-- The loop body executed once for each input of the list, without the
loop test in between. -/
def runFrames [Add α] [Sub α] [Mul α] [Div α] [Zero α] [One α] (P : Platform δ α) :
    App α → List (FrameInput δ) → App α
  | s, [] => s
  | s, inp :: rest => runFrames P (frame P s inp).1 rest

/-! ## Setup part of `main` -/

/-- The outcomes of the setup calls of `main`, and the `double` returned by
the `glfwGetTime()` call just before the render loop. -/
structure SetupInput (δ : Type) where
  windowCreated : Bool
  gladLoaded : Bool
  vertexCompiled : Bool
  vertexInfoLog : String
  fragmentCompiled : Bool
  fragmentInfoLog : String
  programLinked : Bool
  programInfoLog : String
  startTime : δ

/-- What a run of `main` produces: the lines written to `std::cout`, whether
control reached the render loop, the trace of the loop, and the value
returned (`none` when the inputs are used up while the loop is still
running). -/
structure MainResult (δ α : Type) where
  output : List String
  reachedRenderLoop : Bool
  frames : List (FrameRecord δ α)
  exitCode : Option Int

/-- The function `main`. -/
def main [Add α] [Sub α] [Mul α] [Div α] [Zero α] [One α] (P : Platform δ α)
    (setup : SetupInput δ) (inputs : List (FrameInput δ)) : MainResult δ α :=
  if ¬ setup.windowCreated then
    ⟨["Failed to create GLFW window"], false, [], some (-1)⟩
  else if ¬ setup.gladLoaded then
    ⟨["Failed to initialize GLAD"], false, [], some (-1)⟩
  else
    let out : List String := []
    let out := if ¬ setup.vertexCompiled then
      out ++ ["ERROR::SHADER::VERTEX::COMPILATION_FAILED\n" ++ setup.vertexInfoLog] else out
    let out := if ¬ setup.fragmentCompiled then
      out ++ ["ERROR::SHADER::FRAGMENT::COMPILATION_FAILED\n" ++ setup.fragmentInfoLog] else out
    let out := if ¬ setup.programLinked then
      out ++ ["ERROR::SHADER::PROGRAM::LINKING_FAILED\n" ++ setup.programInfoLog] else out
    let lastTime : α := P.toFloat setup.startTime
    let run := renderLoop P (initialApp lastTime) inputs
    ⟨out, true, run.2, if run.1.windowShouldClose then some 0 else none⟩

/-- Whether `processInput` raised the termination signal in the recorded
iteration: the should-close flag was clear when the iteration began and is set
when `processInput` returns. -/
def FrameRecord.raisedByInput (r : FrameRecord δ α) : Bool :=
  !r.before.windowShouldClose
    && (processInput r.before r.input.escape r.input.space).windowShouldClose

/-- The pause invariant: the program rotates exactly when the debounce flag
is clear. -/
def PauseInv (s : App α) : Prop :=
  s.isRotating = !s.isSpacePressed

/-- The states the program can be in: the initial state, and every state
obtained from a reachable one by a call of `processInput` or by a complete
iteration of the loop body. -/
inductive Reachable [Add α] [Sub α] [Mul α] [Div α] [Zero α] [One α]
    (P : Platform δ α) (t0 : α) : App α → Prop
  | init : Reachable P t0 (initialApp t0)
  | input (s : App α) (escape space : KeyState) :
      Reachable P t0 s → Reachable P t0 (processInput s escape space)
  | frame (s : App α) (inp : FrameInput δ) :
      Reachable P t0 s → Reachable P t0 (frame P s inp).1

/-- The angle the program accumulates over a list of frames that follow the
timestamp `tPrev`: in frame order, the update
`angle := angle + speed * (t_i - t_(i-1))` for each frame whose space key is
read as released, and no change for a frame whose space key is read as
pressed; `t_i` is the clock value of frame `i` converted to `float`, and the
operations are those of the program. -/
def accumulateRotation [Add α] [Sub α] [Mul α] (P : Platform δ α) (speed : α) :
    α → α → List (FrameInput δ) → α
  | angle, _, [] => angle
  | angle, tPrev, inp :: rest =>
    accumulateRotation P speed
      (if inp.space = GLFW_RELEASE then angle + speed * (P.toFloat inp.currentTime - tPrev)
        else angle)
      (P.toFloat inp.currentTime) rest

/-- The total time spent in frames whose space key is read as released, for
frame timestamps that follow the timestamp `tPrev`: the sum of
`t_i - t_(i-1)` over those frames. -/
def rotatingTime [Add α] [Sub α] [Zero α] (tPrev : α) : List (FrameInput α) → α
  | [] => 0
  | inp :: rest =>
    (if inp.space = GLFW_RELEASE then inp.currentTime - tPrev else 0)
      + rotatingTime inp.currentTime rest

/-! ## The binary32 instance of the arithmetic

A finite binary32 value is an integer multiple of `2^-149` (the smallest
subnormal) whose magnitude has at most 24 significant bits.  `Float32` holds
a value as its number of units of `2^-149`, and its operations round the exact
result to nearest, ties to even, as the hardware does, subnormal range
included.  The exponent is not bounded above, so the operations agree with the
hardware on every operation whose hardware result is finite; infinities and
NaN are not modelled (a division by zero returns zero). -/

namespace Binary32

/-- The number of low bits of `n` that do not fit in a 24-bit significand:
the least `k` with `n / 2^k < 2^24`, found by halving (`fuel` bounds the
number of halvings). -/
def shift : ℕ → ℕ → ℕ
  | 0, _ => 0
  | fuel + 1, n => if n < 2 ^ 24 then 0 else shift fuel (n / 2) + 1

/-- The quotient `N / E` rounded to the nearest natural number, ties to
even. -/
def roundQuot (N E : ℕ) : ℕ :=
  if 2 * (N % E) < E then N / E
  else if E < 2 * (N % E) then N / E + 1
  else if (N / E) % 2 = 0 then N / E else N / E + 1

/-- The non-negative ratio `N / D` rounded to the nearest natural number with
at most 24 significant bits, ties to even. -/
def roundNat (N D : ℕ) : ℕ :=
  roundQuot N (D * 2 ^ shift (N / D) (N / D)) * 2 ^ shift (N / D) (N / D)

/-- The ratio `num / den` rounded to the nearest integer with at most 24
significant bits, ties to even; rounding is symmetric in the sign. -/
def roundRatio (num : ℤ) (den : ℕ) : ℤ :=
  if 0 ≤ num then (roundNat num.toNat den : ℤ) else -(roundNat (-num).toNat den : ℤ)

/-- A natural number with at most 24 significant bits. -/
def IsFloatNat (n : ℕ) : Prop := ∃ m j : ℕ, m < 2 ^ 24 ∧ n = m * 2 ^ j

/-- A number of units of `2^-149` that a binary32 value can have. -/
def IsFloat (z : ℤ) : Prop := IsFloatNat z.natAbs

/-- The number of units of `2^-149` in 1. -/
def unitsPerOne : ℕ := 2 ^ 149

end Binary32

/-- A value of the C++ type `float`, as its number of units of `2^-149`. -/
structure Float32 where
  units : ℤ
  deriving DecidableEq, Repr

namespace Float32

/-- The literal `0.0f`. -/
instance : Zero Float32 := ⟨⟨0⟩⟩

/-- The literal `1.0f`. -/
instance : One Float32 := ⟨⟨Binary32.unitsPerOne⟩⟩

/-- The `float` sum: the exact sum, rounded. -/
instance : Add Float32 := ⟨fun a b => ⟨Binary32.roundRatio (a.units + b.units) 1⟩⟩

/-- The `float` difference: the exact difference, rounded. -/
instance : Sub Float32 := ⟨fun a b => ⟨Binary32.roundRatio (a.units - b.units) 1⟩⟩

/-- The `float` product: the exact product, rounded. -/
instance : Mul Float32 :=
  ⟨fun a b => ⟨Binary32.roundRatio (a.units * b.units) Binary32.unitsPerOne⟩⟩

/-- The `float` quotient: the exact quotient, rounded. -/
instance : Div Float32 :=
  ⟨fun a b => ⟨Binary32.roundRatio (a.units * Binary32.unitsPerOne * b.units.sign)
    b.units.natAbs⟩⟩

/-- The comparison `a <= b`. -/
instance : LE Float32 := ⟨fun a b => a.units ≤ b.units⟩

/-- The comparison `a <= b` is decidable. -/
instance (a b : Float32) : Decidable (a ≤ b) := Int.decLe a.units b.units

/-- The `float` nearest to the ratio `num / den`: the value a conversion from
`double`, or a literal, with that exact value gives. -/
def ofRatio (num : ℤ) (den : ℕ) : Float32 :=
  ⟨Binary32.roundRatio (num * Binary32.unitsPerOne) den⟩

/-- The exact value of a `float`. -/
def toRat (x : Float32) : ℚ := x.units / 2 ^ 149

end Float32

/-! ## Basic facts about the loop body -/

section lemmas

theorem processInput_rotationAngle (s : App α) (e k : KeyState) :
    (processInput s e k).rotationAngle = s.rotationAngle := by
  unfold processInput glfwSetWindowShouldClose
  cases e <;> cases k <;> cases h : s.isSpacePressed <;> simp [h]

theorem processInput_rotationSpeed (s : App α) (e k : KeyState) :
    (processInput s e k).rotationSpeed = s.rotationSpeed := by
  unfold processInput glfwSetWindowShouldClose
  cases e <;> cases k <;> cases h : s.isSpacePressed <;> simp [h]

theorem processInput_lastTime (s : App α) (e k : KeyState) :
    (processInput s e k).lastTime = s.lastTime := by
  unfold processInput glfwSetWindowShouldClose
  cases e <;> cases k <;> cases h : s.isSpacePressed <;> simp [h]

theorem processInput_windowShouldClose (s : App α) (e k : KeyState) :
    (processInput s e k).windowShouldClose
      = (decide (e = GLFW_PRESS) || s.windowShouldClose) := by
  unfold processInput glfwSetWindowShouldClose
  cases e <;> cases k <;> cases h : s.isSpacePressed <;> simp [h]

theorem processInput_pauseInv (s : App α) (e k : KeyState) (h : PauseInv s) :
    PauseInv (processInput s e k) := by
  unfold PauseInv at *
  unfold processInput glfwSetWindowShouldClose
  cases e <;> cases k <;> cases hp : s.isSpacePressed <;> simp_all

theorem processInput_isRotating (s : App α) (e k : KeyState) (h : PauseInv s) :
    (processInput s e k).isRotating = decide (k = GLFW_RELEASE) := by
  unfold PauseInv at *
  unfold processInput glfwSetWindowShouldClose
  cases e <;> cases k <;> cases hp : s.isSpacePressed <;> simp_all

theorem glfwPollEvents_rotationAngle (s : App α) (c : Bool) :
    (glfwPollEvents s c).rotationAngle = s.rotationAngle := by
  unfold glfwPollEvents
  split <;> rfl

theorem accumulateRotation_pressed [Add α] [Sub α] [Mul α] (P : Platform δ α)
    (speed angle t : α) (inputs : List (FrameInput δ))
    (hp : ∀ inp ∈ inputs, inp.space = GLFW_PRESS) :
    accumulateRotation P speed angle t inputs = angle := by
  induction inputs generalizing t with
  | nil => rfl
  | cons inp rest ih =>
    unfold accumulateRotation
    rw [hp inp (by simp)]
    simpa using ih (P.toFloat inp.currentTime) (fun i hi => hp i (List.mem_cons_of_mem _ hi))

variable [Add α] [Sub α] [Mul α] [Div α] [Zero α] [One α] (P : Platform δ α)

theorem frame_state (s : App α) (inp : FrameInput δ) :
    (frame P s inp).1 =
      glfwPollEvents
        (updateRotation
          { processInput s inp.escape inp.space with lastTime := P.toFloat inp.currentTime }
          (P.toFloat inp.currentTime - s.lastTime))
        inp.closeRequested := by
  simp [frame, processInput_lastTime]

theorem frame_isRotating (s : App α) (inp : FrameInput δ) :
    (frame P s inp).1.isRotating = (processInput s inp.escape inp.space).isRotating := by
  rw [frame_state]
  unfold glfwPollEvents updateRotation
  split <;> split <;> rfl

theorem frame_isSpacePressed (s : App α) (inp : FrameInput δ) :
    (frame P s inp).1.isSpacePressed
      = (processInput s inp.escape inp.space).isSpacePressed := by
  rw [frame_state]
  unfold glfwPollEvents updateRotation
  split <;> split <;> rfl

theorem frame_rotationSpeed (s : App α) (inp : FrameInput δ) :
    (frame P s inp).1.rotationSpeed = s.rotationSpeed := by
  rw [frame_state, ← processInput_rotationSpeed s inp.escape inp.space]
  unfold glfwPollEvents updateRotation
  split <;> split <;> rfl

theorem frame_lastTime (s : App α) (inp : FrameInput δ) :
    (frame P s inp).1.lastTime = P.toFloat inp.currentTime := by
  rw [frame_state]
  unfold glfwPollEvents updateRotation
  split <;> split <;> rfl

theorem frame_rotationAngle (s : App α) (inp : FrameInput δ) :
    (frame P s inp).1.rotationAngle =
      if (processInput s inp.escape inp.space).isRotating then
        s.rotationAngle + s.rotationSpeed * (P.toFloat inp.currentTime - s.lastTime)
      else s.rotationAngle := by
  rw [frame_state, ← processInput_rotationSpeed s inp.escape inp.space,
    ← processInput_rotationAngle s inp.escape inp.space]
  unfold glfwPollEvents updateRotation
  split <;> split <;> simp_all

theorem frame_windowShouldClose (s : App α) (inp : FrameInput δ) :
    (frame P s inp).1.windowShouldClose
      = (decide (inp.escape = GLFW_PRESS) || s.windowShouldClose || inp.closeRequested) := by
  rw [frame_state]
  have h := processInput_windowShouldClose s inp.escape inp.space
  unfold glfwPollEvents updateRotation
  split <;> split <;> simp_all

theorem frame_transform (s : App α) (inp : FrameInput δ) :
    (frame P s inp).2
      = glm.rotate P.toScalarFns (glm.mat4.ofScalar 1) (frame P s inp).1.rotationAngle
          ⟨0, 0, 1⟩ := by
  simp [frame, glfwPollEvents_rotationAngle]

theorem frame_pauseInv (s : App α) (inp : FrameInput δ) (h : PauseInv s) :
    PauseInv (frame P s inp).1 := by
  have := processInput_pauseInv s inp.escape inp.space h
  unfold PauseInv at *
  rw [frame_isRotating, frame_isSpacePressed]
  exact this

theorem reachable_pauseInv {t0 : α} {s : App α} (h : Reachable P t0 s) : PauseInv s := by
  induction h with
  | init => rfl
  | input s e k _ ih => exact processInput_pauseInv s e k ih
  | frame s inp _ ih => exact frame_pauseInv P s inp ih

theorem reachable_rotationSpeed {t0 : α} {s : App α} (h : Reachable P t0 s) :
    s.rotationSpeed = 1 := by
  induction h with
  | init => rfl
  | input s e k _ ih => rw [processInput_rotationSpeed]; exact ih
  | frame s inp _ ih => rw [frame_rotationSpeed]; exact ih

theorem runFrames_pressed (s : App α) (inputs : List (FrameInput δ)) (h : PauseInv s)
    (hne : inputs ≠ []) (hp : ∀ inp ∈ inputs, inp.space = GLFW_PRESS) :
    (runFrames P s inputs).isRotating = false := by
  induction inputs generalizing s with
  | nil => exact absurd rfl hne
  | cons inp rest ih =>
    have hinv := frame_pauseInv P s inp h
    cases rest with
    | nil =>
      show (frame P s inp).1.isRotating = false
      rw [frame_isRotating, processInput_isRotating s _ _ h, hp inp (by simp)]
      rfl
    | cons inp2 rest2 =>
      exact ih (frame P s inp).1 hinv (by simp) (fun i hi => hp i (List.mem_cons_of_mem _ hi))

theorem renderLoop_closed (s : App α) (inputs : List (FrameInput δ))
    (h : s.windowShouldClose = true) : renderLoop P s inputs = (s, []) := by
  cases inputs with
  | nil => rfl
  | cons inp rest => simp [renderLoop, h]

theorem renderLoop_open (s : App α) (inp : FrameInput δ) (rest : List (FrameInput δ))
    (h : s.windowShouldClose = false) :
    renderLoop P s (inp :: rest)
      = ((renderLoop P (frame P s inp).1 rest).1,
          ⟨s, inp, (frame P s inp).1, (frame P s inp).2⟩
            :: (renderLoop P (frame P s inp).1 rest).2) := by
  simp [renderLoop, h]

/-- Every record of the trace of the render loop is one execution of the loop
body, entered with the should-close flag clear, on one of the inputs; an
invariant of the loop body holds before each of them. -/
theorem renderLoop_records (Inv : App α → Prop)
    (hInv : ∀ s inp, Inv s → Inv (frame P s inp).1)
    (s : App α) (inputs : List (FrameInput δ)) (hs : Inv s) :
    ∀ r ∈ (renderLoop P s inputs).2,
      Inv r.before ∧ r.before.windowShouldClose = false ∧ r.input ∈ inputs
        ∧ r.after = (frame P r.before r.input).1
        ∧ r.transform = (frame P r.before r.input).2 := by
  induction inputs generalizing s with
  | nil => intro r hr; simp [renderLoop] at hr
  | cons inp rest ih =>
    intro r hr
    cases hc : s.windowShouldClose with
    | true => rw [renderLoop_closed P s _ hc] at hr; simp at hr
    | false =>
      rw [renderLoop_open P s inp rest hc] at hr
      rcases List.mem_cons.1 hr with h | h
      · subst h
        exact ⟨hs, hc, by simp, rfl, rfl⟩
      · obtain ⟨h1, h2, h3, h4, h5⟩ := ih (frame P s inp).1 (hInv s inp hs) r h
        exact ⟨h1, h2, List.mem_cons_of_mem _ h3, h4, h5⟩

/-- The angle after the loop body has run on a list of inputs is the
accumulation of the updates of the frames read as released. -/
theorem runFrames_rotationAngle (s : App α) (inputs : List (FrameInput δ))
    (h : PauseInv s) :
    (runFrames P s inputs).rotationAngle
      = accumulateRotation P s.rotationSpeed s.rotationAngle s.lastTime inputs := by
  induction inputs generalizing s with
  | nil => rfl
  | cons inp rest ih =>
    show (runFrames P (frame P s inp).1 rest).rotationAngle = _
    rw [ih _ (frame_pauseInv P s inp h), frame_rotationAngle, frame_rotationSpeed,
      frame_lastTime, processInput_isRotating s _ _ h]
    conv_rhs => unfold accumulateRotation
    by_cases hk : inp.space = GLFW_RELEASE
    · simp [hk]
    · simp [hk]

theorem renderLoop_eq_runFrames (s : App α) (inputs : List (FrameInput δ)) :
    (renderLoop P s inputs).1
      = runFrames P s (inputs.take (renderLoop P s inputs).2.length) := by
  induction inputs generalizing s with
  | nil => rfl
  | cons inp rest ih =>
    cases hc : s.windowShouldClose with
    | true => rw [renderLoop_closed P s _ hc]; rfl
    | false =>
      rw [renderLoop_open P s inp rest hc]
      simp only [List.length_cons, List.take_succ_cons, runFrames]
      exact ih _

theorem runFrames_append (s : App α) (l1 l2 : List (FrameInput δ)) :
    runFrames P s (l1 ++ l2) = runFrames P (runFrames P s l1) l2 := by
  induction l1 generalizing s with
  | nil => rfl
  | cons inp rest ih => exact ih _

theorem runFrames_pauseInv (s : App α) (inputs : List (FrameInput δ)) (h : PauseInv s) :
    PauseInv (runFrames P s inputs) := by
  induction inputs generalizing s with
  | nil => exact h
  | cons inp rest ih => exact ih _ (frame_pauseInv P s inp h)

theorem runFrames_rotationSpeed (s : App α) (inputs : List (FrameInput δ)) :
    (runFrames P s inputs).rotationSpeed = s.rotationSpeed := by
  induction inputs generalizing s with
  | nil => rfl
  | cons inp rest ih => exact (ih _).trans (frame_rotationSpeed P s inp)

theorem renderLoop_raised (s : App α) (inputs : List (FrameInput δ)) :
    List.countP FrameRecord.raisedByInput (renderLoop P s inputs).2 ≤ 1
    ∧ ((∃ r ∈ (renderLoop P s inputs).2, r.input.escape = GLFW_PRESS) →
        List.countP FrameRecord.raisedByInput (renderLoop P s inputs).2 = 1) := by
  induction inputs generalizing s with
  | nil => simp [renderLoop]
  | cons inp rest ih =>
    cases hc : s.windowShouldClose with
    | true => rw [renderLoop_closed P s _ hc]; simp
    | false =>
      rw [renderLoop_open P s inp rest hc]
      cases he : inp.escape with
      | GLFW_PRESS =>
        have hclose : (frame P s inp).1.windowShouldClose = true := by
          rw [frame_windowShouldClose, he]; rfl
        rw [renderLoop_closed P _ rest hclose]
        simp [FrameRecord.raisedByInput, hc, processInput_windowShouldClose, he]
      | GLFW_RELEASE =>
        have hno : FrameRecord.raisedByInput
            (⟨s, inp, (frame P s inp).1, (frame P s inp).2⟩ : FrameRecord δ α) = false := by
          simp [FrameRecord.raisedByInput, hc, processInput_windowShouldClose, he]
        obtain ⟨ih1, ih2⟩ := ih (frame P s inp).1
        simp only [List.countP_cons, hno]
        refine ⟨by simpa using ih1, ?_⟩
        rintro ⟨r, hr, hre⟩
        rcases List.mem_cons.1 hr with h | h
        · subst h
          simp [he] at hre
        · simpa using ih2 ⟨r, h, hre⟩

end lemmas

/-! ## Facts about the binary32 rounding -/

namespace Binary32

theorem shift_spec (fuel n : ℕ) (h : n < 2 ^ (24 + fuel)) :
    n < 2 ^ (shift fuel n + 24) ∧ (0 < shift fuel n → 2 ^ (shift fuel n + 23) ≤ n) := by
  induction fuel generalizing n with
  | zero => exact ⟨by simpa [shift] using h, by simp [shift]⟩
  | succ f ih =>
    unfold shift
    by_cases hn : n < 2 ^ 24
    · simp only [hn, if_true]
      exact ⟨by simp [hn], by simp⟩
    · simp only [hn, if_false]
      have h2 : n / 2 < 2 ^ (24 + f) := by
        rw [Nat.div_lt_iff_lt_mul (by norm_num)]
        calc n < 2 ^ (24 + (f + 1)) := h
          _ = 2 ^ (24 + f) * 2 := by rw [← Nat.add_assoc, pow_succ]
      obtain ⟨h3, h4⟩ := ih (n / 2) h2
      refine ⟨?_, fun _ => ?_⟩
      · have : n / 2 < 2 ^ (shift f (n / 2) + 24) := h3
        have e : 2 ^ (shift f (n / 2) + 1 + 24) = 2 ^ (shift f (n / 2) + 24) * 2 := by
          rw [← pow_succ]
        rw [e]
        omega
      · have e : 2 ^ (shift f (n / 2) + 1 + 23) = 2 ^ (shift f (n / 2) + 23) * 2 := by
          rw [← pow_succ]
        rw [e]
        by_cases hk : 0 < shift f (n / 2)
        · have := h4 hk
          omega
        · have hk0 : shift f (n / 2) = 0 := by omega
          rw [hk0]
          simp only [zero_add]
          have : (2:ℕ) ^ 23 * 2 = 2 ^ 24 := by norm_num
          omega

theorem shift_self (n : ℕ) :
    n < 2 ^ (shift n n + 24) ∧ (0 < shift n n → 2 ^ (shift n n + 23) ≤ n) := by
  apply shift_spec
  calc n < 2 ^ n := Nat.lt_two_pow n
    _ ≤ 2 ^ (24 + n) := Nat.pow_le_pow_right (by norm_num) (by omega)

theorem le_roundQuot (N E : ℕ) : N / E ≤ roundQuot N E := by
  unfold roundQuot; split_ifs <;> omega

theorem roundQuot_le (N E : ℕ) : roundQuot N E ≤ N / E + 1 := by
  unfold roundQuot; split_ifs <;> omega

theorem roundQuot_of_dvd (N E : ℕ) (hE : 0 < E) (h : N % E = 0) : roundQuot N E = N / E := by
  unfold roundQuot; rw [h]; simp [hE]

theorem mul_le_roundQuot (N E c : ℕ) (hE : 0 < E) (h : c * E ≤ N) : c ≤ roundQuot N E :=
  le_trans ((Nat.le_div_iff_mul_le hE).2 h) (le_roundQuot N E)

theorem roundQuot_le_of_le_mul (N E c : ℕ) (hE : 0 < E) (h : N ≤ c * E) :
    roundQuot N E ≤ c := by
  have hq : N / E ≤ c := Nat.div_le_of_le_mul (by rw [Nat.mul_comm]; exact h)
  rcases Nat.lt_or_ge (N / E) c with h1 | h1
  · exact le_trans (roundQuot_le N E) h1
  · have hqc : N / E = c := le_antisymm hq h1
    have h3 : N / E * E ≤ N := Nat.div_mul_le_self N E
    rw [hqc] at h3
    have hN : N = c * E := le_antisymm h h3
    rw [roundQuot_of_dvd N E hE (by rw [hN]; exact Nat.mul_mod_left c E), hqc]

theorem roundNat_isFloatNat (N D : ℕ) : IsFloatNat (roundNat N D) := by
  unfold roundNat
  set k := shift (N / D) (N / D) with hk
  have hq : N / (D * 2 ^ k) < 2 ^ 24 := by
    rw [← Nat.div_div_eq_div_mul, Nat.div_lt_iff_lt_mul (by positivity), ← pow_add,
      Nat.add_comm]
    exact (shift_self (N / D)).1
  have h1 := roundQuot_le N (D * 2 ^ k)
  rcases Nat.lt_or_ge (roundQuot N (D * 2 ^ k)) (2 ^ 24) with h | h
  · exact ⟨_, k, h, rfl⟩
  · have e : roundQuot N (D * 2 ^ k) = 2 ^ 24 := by omega
    refine ⟨2 ^ 23, k + 1, by norm_num, ?_⟩
    rw [e]
    ring

theorem le_roundNat (N D A : ℕ) (hD : 0 < D) (hA : IsFloatNat A) (h : A * D ≤ N) :
    A ≤ roundNat N D := by
  obtain ⟨m, j, hm, rfl⟩ := hA
  unfold roundNat
  set k := shift (N / D) (N / D) with hk
  have hE : 0 < D * 2 ^ k := by positivity
  rcases Nat.lt_or_ge j k with hjk | hjk
  · have h23 : 2 ^ (k + 23) ≤ N / D := (shift_self (N / D)).2 (by omega)
    have hN : 2 ^ 23 * (D * 2 ^ k) ≤ N := by
      have := (Nat.le_div_iff_mul_le hD).1 h23
      calc 2 ^ 23 * (D * 2 ^ k) = 2 ^ (k + 23) * D := by rw [pow_add]; ring
        _ ≤ N := this
    have hq := mul_le_roundQuot N _ _ hE hN
    calc m * 2 ^ j ≤ 2 ^ 24 * 2 ^ j := Nat.mul_le_mul_right _ (le_of_lt hm)
      _ = 2 ^ (24 + j) := by rw [pow_add]
      _ ≤ 2 ^ (23 + k) := Nat.pow_le_pow_right (by norm_num) (by omega)
      _ = 2 ^ 23 * 2 ^ k := by rw [pow_add]
      _ ≤ roundQuot N (D * 2 ^ k) * 2 ^ k := Nat.mul_le_mul_right _ hq
  · obtain ⟨d, rfl⟩ := Nat.exists_eq_add_of_le hjk
    have hN : m * 2 ^ d * (D * 2 ^ k) ≤ N := by
      calc m * 2 ^ d * (D * 2 ^ k) = m * 2 ^ (k + d) * D := by rw [pow_add]; ring
        _ ≤ N := h
    have hq := mul_le_roundQuot N _ _ hE hN
    calc m * 2 ^ (k + d) = m * 2 ^ d * 2 ^ k := by rw [pow_add]; ring
      _ ≤ roundQuot N (D * 2 ^ k) * 2 ^ k := Nat.mul_le_mul_right _ hq

theorem roundNat_le (N D A : ℕ) (hD : 0 < D) (hA : IsFloatNat A) (h : N ≤ A * D) :
    roundNat N D ≤ A := by
  obtain ⟨m, j, hm, rfl⟩ := hA
  unfold roundNat
  set k := shift (N / D) (N / D) with hk
  have hE : 0 < D * 2 ^ k := by positivity
  rcases Nat.lt_or_ge j k with hjk | hjk
  · exfalso
    have h23 : 2 ^ (k + 23) ≤ N / D := (shift_self (N / D)).2 (by omega)
    have hND : N / D ≤ m * 2 ^ j := Nat.div_le_of_le_mul (by rw [Nat.mul_comm]; exact h)
    have : m * 2 ^ j < 2 ^ (k + 23) :=
      calc m * 2 ^ j < 2 ^ 24 * 2 ^ j := Nat.mul_lt_mul_of_pos_right hm (by positivity)
        _ = 2 ^ (24 + j) := by rw [pow_add]
        _ ≤ 2 ^ (k + 23) := Nat.pow_le_pow_right (by norm_num) (by omega)
    omega
  · obtain ⟨d, rfl⟩ := Nat.exists_eq_add_of_le hjk
    have hN : N ≤ m * 2 ^ d * (D * 2 ^ k) := by
      calc N ≤ m * 2 ^ (k + d) * D := h
        _ = m * 2 ^ d * (D * 2 ^ k) := by rw [pow_add]; ring
    have hq := roundQuot_le_of_le_mul N _ _ hE hN
    calc roundQuot N (D * 2 ^ k) * 2 ^ k ≤ m * 2 ^ d * 2 ^ k := Nat.mul_le_mul_right _ hq
      _ = m * 2 ^ (k + d) := by rw [pow_add]; ring

theorem roundRatio_isFloat (num : ℤ) (den : ℕ) : IsFloat (roundRatio num den) := by
  unfold roundRatio IsFloat
  split
  · simpa using roundNat_isFloatNat _ _
  · simpa using roundNat_isFloatNat _ _

/-- Rounding does not cross a representable value from above: a ratio that is
at least a representable `a` rounds to at least `a`. -/
theorem le_roundRatio (num : ℤ) (den : ℕ) (a : ℤ) (hden : 0 < den) (ha : IsFloat a)
    (h : a * den ≤ num) : a ≤ roundRatio num den := by
  unfold roundRatio
  by_cases hn : 0 ≤ num
  · simp only [hn, if_true]
    rcases le_or_lt a 0 with ha0 | ha0
    · exact le_trans ha0 (Int.natCast_nonneg _)
    · have hA : a = (a.natAbs : ℤ) := (Int.natAbs_of_nonneg (le_of_lt ha0)).symm
      rw [hA]
      apply Int.ofNat_le.2
      apply le_roundNat _ _ _ hden ha
      apply Int.ofNat_le.1
      rw [Int.toNat_of_nonneg hn]
      push_cast
      rw [abs_of_pos ha0]
      exact h
  · simp only [hn, if_false]
    have hneg : num < 0 := not_le.1 hn
    have ha0 : a < 0 := by
      by_contra hc
      have : 0 ≤ a * den := mul_nonneg (not_lt.1 hc) (Int.natCast_nonneg _)
      omega
    have hA : a = -(a.natAbs : ℤ) := by
      rw [← Int.natAbs_neg, Int.natAbs_of_nonneg (by omega)]; ring
    rw [hA]
    apply neg_le_neg
    apply Int.ofNat_le.2
    apply roundNat_le _ _ _ hden ha
    apply Int.ofNat_le.1
    rw [Int.toNat_of_nonneg (by omega)]
    push_cast
    rw [abs_of_neg ha0]
    linarith

theorem roundRatio_nonneg (num : ℤ) (den : ℕ) (h : 0 ≤ num) : 0 ≤ roundRatio num den := by
  unfold roundRatio
  rw [if_pos h]
  exact Int.natCast_nonneg _

theorem isFloat_zero : IsFloat 0 := ⟨0, 0, by norm_num, by simp⟩

end Binary32

namespace Float32

theorem add_isFloat (a b : Float32) : Binary32.IsFloat (a + b).units :=
  Binary32.roundRatio_isFloat _ _

theorem le_of_eq_self (a : Float32) : a ≤ a := Int.le_refl a.units

theorem le_of_le_of_le {a b c : Float32} (h1 : a ≤ b) (h2 : b ≤ c) : a ≤ c :=
  Int.le_trans h1 h2

/-- Adding a non-negative `float` to a `float` does not give a smaller one,
whatever the rounding does. -/
theorem le_add_of_nonneg (a p : Float32) (ha : Binary32.IsFloat a.units) (hp : 0 ≤ p) :
    a ≤ a + p := by
  show a.units ≤ Binary32.roundRatio (a.units + p.units) 1
  have h0 : (0 : ℤ) ≤ p.units := hp
  apply Binary32.le_roundRatio _ _ _ (by norm_num) ha
  push_cast
  linarith

theorem mul_nonneg_of_nonneg (a b : Float32) (ha : 0 ≤ a) (hb : 0 ≤ b) : 0 ≤ a * b := by
  show (0 : ℤ) ≤ Binary32.roundRatio (a.units * b.units) Binary32.unitsPerOne
  have h1 : (0 : ℤ) ≤ a.units := ha
  have h2 : (0 : ℤ) ≤ b.units := hb
  exact Binary32.roundRatio_nonneg _ _ (Int.mul_nonneg h1 h2)

theorem zero_le_one_float : (0 : Float32) ≤ 1 := by
  show (0 : ℤ) ≤ (Binary32.unitsPerOne : ℤ)
  exact Int.natCast_nonneg _

end Float32

section float32

variable (P : Platform δ Float32)

theorem frame_angle_isFloat (s : App Float32) (inp : FrameInput δ)
    (h : Binary32.IsFloat s.rotationAngle.units) :
    Binary32.IsFloat (frame P s inp).1.rotationAngle.units := by
  rw [frame_rotationAngle]
  split
  · exact Float32.add_isFloat _ _
  · exact h

theorem reachable_angle_isFloat {t0 : Float32} {s : App Float32} (h : Reachable P t0 s) :
    Binary32.IsFloat s.rotationAngle.units := by
  induction h with
  | init => exact Binary32.isFloat_zero
  | input s e k _ ih => rw [processInput_rotationAngle]; exact ih
  | frame s inp _ ih => exact frame_angle_isFloat P s inp ih

/-- One execution of the loop body in binary32 with a non-negative `deltaTime`
and a non-negative speed does not decrease the angle. -/
theorem frame_rotationAngle_mono (s : App Float32) (inp : FrameInput δ)
    (hfl : Binary32.IsFloat s.rotationAngle.units) (hspeed : 0 ≤ s.rotationSpeed)
    (hdt : 0 ≤ P.toFloat inp.currentTime - s.lastTime) :
    s.rotationAngle ≤ (frame P s inp).1.rotationAngle := by
  rw [frame_rotationAngle]
  split
  · exact Float32.le_add_of_nonneg _ _ hfl (Float32.mul_nonneg_of_nonneg _ _ hspeed hdt)
  · exact Float32.le_of_eq_self _

/-- Over loop bodies executed in binary32 with non-negative `deltaTime` values
the angle does not decrease. -/
theorem runFrames_rotationAngle_mono (s : App Float32) (inputs : List (FrameInput δ))
    (hfl : Binary32.IsFloat s.rotationAngle.units) (hspeed : 0 ≤ s.rotationSpeed)
    (hts : List.Chain (fun a b => (0 : Float32) ≤ b - a) s.lastTime
      (inputs.map (fun i => P.toFloat i.currentTime))) :
    s.rotationAngle ≤ (runFrames P s inputs).rotationAngle := by
  induction inputs generalizing s with
  | nil => exact Float32.le_of_eq_self _
  | cons inp rest ih =>
    rw [List.map_cons, List.chain_cons] at hts
    have h1 := frame_rotationAngle_mono P s inp hfl hspeed hts.1
    have h2 := ih (frame P s inp).1 (frame_angle_isFloat P s inp hfl)
      (by rw [frame_rotationSpeed]; exact hspeed) (by rw [frame_lastTime]; exact hts.2)
    exact Float32.le_of_le_of_le h1 h2

end float32

/-- In exact arithmetic, where the conversion to `float` changes nothing, the
accumulated angle has the closed form `angle + speed * rotatingTime`. -/
theorem accumulateRotation_exact {κ : Type} [Field κ] (P : Platform κ κ)
    (hP : ∀ x, P.toFloat x = x) (speed angle t : κ) (inputs : List (FrameInput κ)) :
    accumulateRotation P speed angle t inputs = angle + speed * rotatingTime t inputs := by
  induction inputs generalizing angle t with
  | nil => simp [accumulateRotation, rotatingTime]
  | cons inp rest ih =>
    unfold accumulateRotation rotatingTime
    rw [ih, hP]
    by_cases hk : inp.space = GLFW_RELEASE
    · simp only [hk, if_true]; ring
    · simp only [hk, if_false]; ring

/-! ## The per-frame contract -/

/-- C1: the angle update of the loop body.  Whatever the arithmetic on the
scalars is, for every pre-update angle, speed and `deltaTime` (in particular
every `deltaTime ≥ 0`): if `isRotating` is true when the update runs, the
post-update angle is the pre-update angle plus `rotationSpeed * deltaTime`,
and if it is false the angle is unchanged.  In the loop body the update runs
on the state left by `processInput`, with `deltaTime = currentTime - lastTime`. -/
theorem updateRotation_contract {β : Type} [Add β] [Mul β] (u : App β) (deltaTime : β)
    [Add α] [Sub α] [Mul α] [Div α] [Zero α] [One α] (P : Platform δ α) (s : App α)
    (inp : FrameInput δ) :
    (u.isRotating = true →
        (updateRotation u deltaTime).rotationAngle
          = u.rotationAngle + u.rotationSpeed * deltaTime)
    ∧ (u.isRotating = false → (updateRotation u deltaTime).rotationAngle = u.rotationAngle)
    ∧ (frame P s inp).1.rotationAngle
        = (updateRotation (processInput s inp.escape inp.space)
            (P.toFloat inp.currentTime - s.lastTime)).rotationAngle := by
  refine ⟨fun h => ?_, fun h => ?_, ?_⟩
  · simp [updateRotation, h]
  · simp [updateRotation, h]
  · rw [frame_rotationAngle]
    unfold updateRotation
    split <;> simp [processInput_rotationAngle, processInput_rotationSpeed]

/-- C1, the two scenarios of the spec: angle 0, speed 1, `deltaTime` 1/2,
rotating gives 1/2; paused with `deltaTime` 1 leaves the angle (here 7/3)
unchanged. -/
theorem updateRotation_contract_witness :
    (updateRotation (⟨true, 0, 1, false, 0, false⟩ : App ℚ) (1 / 2)).rotationAngle = 1 / 2
    ∧ (updateRotation (⟨false, 7 / 3, 1, true, 0, false⟩ : App ℚ) 1).rotationAngle = 7 / 3 := by
  have h1 := (updateRotation_contract (⟨true, 0, 1, false, 0, false⟩ : App ℚ) (1 / 2)
    ⟨⟨Real.cos, Real.sin, Real.sqrt⟩, id⟩ (initialApp 0)
    ⟨GLFW_RELEASE, GLFW_RELEASE, 0, false⟩).1 rfl
  have h2 := (updateRotation_contract (⟨false, 7 / 3, 1, true, 0, false⟩ : App ℚ) 1
    ⟨⟨Real.cos, Real.sin, Real.sqrt⟩, id⟩ (initialApp 0)
    ⟨GLFW_RELEASE, GLFW_RELEASE, 0, false⟩).2.1 rfl
  refine ⟨?_, h2⟩
  rw [h1]
  norm_num

/-! ## The pause state machine -/

/-- C2: the initial state is Rotating with the debounce flag clear, and in
every reachable state a call of `processInput` that reads the space key as
pressed while Rotating leaves the state Paused, and a call that reads it as
released while Paused leaves the state Rotating. -/
theorem processInput_pause_machine [Add α] [Sub α] [Mul α] [Div α] [Zero α] [One α]
    (P : Platform δ α) (t0 : α)
    (s : App α) (escape : KeyState) (hs : Reachable P t0 s) :
    (initialApp t0).isRotating = true
    ∧ (initialApp t0).isSpacePressed = false
    ∧ (s.isRotating = true → (processInput s escape GLFW_PRESS).isRotating = false)
    ∧ (s.isRotating = false → (processInput s escape GLFW_RELEASE).isRotating = true) := by
  have hinv := reachable_pauseInv P hs
  refine ⟨rfl, rfl, fun _ => ?_, fun _ => ?_⟩
  · rw [processInput_isRotating s escape GLFW_PRESS hinv]; rfl
  · rw [processInput_isRotating s escape GLFW_RELEASE hinv]; rfl

/-- C2 at concrete states: pressing space in the initial state pauses, and
releasing it in the paused state that results resumes. -/
theorem processInput_pause_machine_witness :
    (processInput (initialApp (0 : ℝ)) GLFW_RELEASE GLFW_PRESS).isRotating = false
    ∧ (processInput (processInput (initialApp (0 : ℝ)) GLFW_RELEASE GLFW_PRESS)
        GLFW_RELEASE GLFW_RELEASE).isRotating = true :=
  ⟨(processInput_pause_machine ⟨⟨Real.cos, Real.sin, Real.sqrt⟩, id⟩ 0 (initialApp 0)
      GLFW_RELEASE (Reachable.init)).2.2.1 rfl,
   (processInput_pause_machine ⟨⟨Real.cos, Real.sin, Real.sqrt⟩, id⟩ 0
      (processInput (initialApp 0) GLFW_RELEASE GLFW_PRESS) GLFW_RELEASE
      (Reachable.input _ _ _ Reachable.init)).2.2.2 rfl⟩

/-- C3: hold-to-pause.  In every reachable state and for every frame, after
`processInput` the program is rotating exactly when the space key was read as
released, so the frame advances the angle by `rotationSpeed * deltaTime` when
the key is read as released and leaves it unchanged when it is read as
pressed. -/
theorem hold_to_pause [Add α] [Sub α] [Mul α] [Div α] [Zero α] [One α]
    (P : Platform δ α) (t0 : α) (s : App α)
    (inp : FrameInput δ) (hs : Reachable P t0 s) :
    ((processInput s inp.escape inp.space).isRotating = true ↔ inp.space = GLFW_RELEASE)
    ∧ (frame P s inp).1.rotationAngle
        = if inp.space = GLFW_RELEASE then
            s.rotationAngle + s.rotationSpeed * (P.toFloat inp.currentTime - s.lastTime)
          else s.rotationAngle := by
  have hinv := reachable_pauseInv P hs
  have hrot := processInput_isRotating s inp.escape inp.space hinv
  refine ⟨by simp [hrot], ?_⟩
  rw [frame_rotationAngle, hrot]
  simp

/-- C3 at a concrete frame: from the initial state at time 0, a frame at time
1/2 with the space key released advances the angle to 1/2, and the same
frame with the key pressed leaves it at 0. -/
theorem hold_to_pause_witness :
    (frame ⟨⟨Real.cos, Real.sin, Real.sqrt⟩, id⟩ (initialApp (0 : ℝ))
        ⟨GLFW_RELEASE, GLFW_RELEASE, 1 / 2, false⟩).1.rotationAngle = 1 / 2
    ∧ (frame ⟨⟨Real.cos, Real.sin, Real.sqrt⟩, id⟩ (initialApp (0 : ℝ))
        ⟨GLFW_RELEASE, GLFW_PRESS, 1 / 2, false⟩).1.rotationAngle = 0 := by
  constructor
  · rw [(hold_to_pause ⟨⟨Real.cos, Real.sin, Real.sqrt⟩, id⟩ 0 (initialApp 0)
      ⟨GLFW_RELEASE, GLFW_RELEASE, 1 / 2, false⟩ Reachable.init).2]
    norm_num [initialApp]
  · rw [(hold_to_pause ⟨⟨Real.cos, Real.sin, Real.sqrt⟩, id⟩ 0 (initialApp 0)
      ⟨GLFW_RELEASE, GLFW_PRESS, 1 / 2, false⟩ Reachable.init).2]
    simp [initialApp]

/-- C4: repeated presses are no-ops.  For every state, a second call of
`processInput` with the space key read as pressed gives the same state as the
first (with the same escape reading; the pause state is the same whatever the
escape readings are).  Hence from a reachable state, after each of `n ≥ 1`
consecutive frames in which the space key is read as pressed the state is
Paused: after `k` executions of the loop body for every `1 ≤ k ≤ n`, and after
every iteration the render loop executes. -/
theorem repeated_press_noop [Add α] [Sub α] [Mul α] [Div α] [Zero α] [One α]
    (P : Platform δ α) (t0 : α)
    (u : App α) (e e2 : KeyState) (s : App α) (inputs : List (FrameInput δ)) (k : ℕ)
    (hs : Reachable P t0 s) (hpress : ∀ inp ∈ inputs, inp.space = GLFW_PRESS)
    (hk : 0 < k) (hkn : k ≤ inputs.length) :
    processInput (processInput u e GLFW_PRESS) e GLFW_PRESS = processInput u e GLFW_PRESS
    ∧ (processInput (processInput u e GLFW_PRESS) e2 GLFW_PRESS).isRotating
        = (processInput u e GLFW_PRESS).isRotating
    ∧ (processInput (processInput u e GLFW_PRESS) e2 GLFW_PRESS).isSpacePressed
        = (processInput u e GLFW_PRESS).isSpacePressed
    ∧ (runFrames P s (inputs.take k)).isRotating = false
    ∧ ∀ r ∈ (renderLoop P s inputs).2, r.after.isRotating = false := by
  have hinv := reachable_pauseInv P hs
  refine ⟨?_, ?_, ?_, ?_, ?_⟩
  · unfold processInput glfwSetWindowShouldClose
    cases e <;> cases hp : u.isSpacePressed <;> simp [hp]
  · unfold processInput glfwSetWindowShouldClose
    cases e <;> cases e2 <;> cases hp : u.isSpacePressed <;> simp [hp]
  · unfold processInput glfwSetWindowShouldClose
    cases e <;> cases e2 <;> cases hp : u.isSpacePressed <;> simp [hp]
  · apply runFrames_pressed P s _ hinv
    · intro h
      have hl := congrArg List.length h
      rw [List.length_take, List.length_nil] at hl
      omega
    · intro inp hi
      exact hpress inp (List.mem_of_mem_take hi)
  · intro r hr
    obtain ⟨h1, _, h3, h4, _⟩ :=
      renderLoop_records P PauseInv (fun s inp h => frame_pauseInv P s inp h) s inputs hinv r hr
    rw [h4, frame_isRotating, processInput_isRotating _ _ _ h1, hpress _ h3]
    rfl

/-- C4, the scenario of the spec: the space key held pressed across 3
consecutive frames from the initial state; the state is Paused after the
first, the second and the third frame. -/
theorem repeated_press_noop_witness :
    (runFrames ⟨⟨Real.cos, Real.sin, Real.sqrt⟩, id⟩ (initialApp (0 : ℝ))
        (List.take 1 [⟨GLFW_RELEASE, GLFW_PRESS, 1, false⟩,
          ⟨GLFW_RELEASE, GLFW_PRESS, 2, false⟩,
          ⟨GLFW_RELEASE, GLFW_PRESS, 3, false⟩])).isRotating = false
    ∧ (runFrames ⟨⟨Real.cos, Real.sin, Real.sqrt⟩, id⟩ (initialApp (0 : ℝ))
        (List.take 2 [⟨GLFW_RELEASE, GLFW_PRESS, 1, false⟩,
          ⟨GLFW_RELEASE, GLFW_PRESS, 2, false⟩,
          ⟨GLFW_RELEASE, GLFW_PRESS, 3, false⟩])).isRotating = false
    ∧ (runFrames ⟨⟨Real.cos, Real.sin, Real.sqrt⟩, id⟩ (initialApp (0 : ℝ))
        (List.take 3 [⟨GLFW_RELEASE, GLFW_PRESS, 1, false⟩,
          ⟨GLFW_RELEASE, GLFW_PRESS, 2, false⟩,
          ⟨GLFW_RELEASE, GLFW_PRESS, 3, false⟩])).isRotating = false :=
  ⟨(repeated_press_noop ⟨⟨Real.cos, Real.sin, Real.sqrt⟩, id⟩ 0 (initialApp 0)
      GLFW_RELEASE GLFW_RELEASE (initialApp 0) _ 1 Reachable.init
      (by simp) (by decide) (by simp)).2.2.2.1,
   (repeated_press_noop ⟨⟨Real.cos, Real.sin, Real.sqrt⟩, id⟩ 0 (initialApp 0)
      GLFW_RELEASE GLFW_RELEASE (initialApp 0) _ 2 Reachable.init
      (by simp) (by decide) (by simp)).2.2.2.1,
   (repeated_press_noop ⟨⟨Real.cos, Real.sin, Real.sqrt⟩, id⟩ 0 (initialApp 0)
      GLFW_RELEASE GLFW_RELEASE (initialApp 0) _ 3 Reachable.init
      (by simp) (by decide) (by simp)).2.2.2.1⟩

/-! ## The angle over a run -/

set_option maxRecDepth 100000 in
/-- C10 as stated fails in the program's binary32 arithmetic.  Start at time
0 and run two frames with the space key released, at the `float` timestamps
nearest 1/60 and 3/60 (clock readings that are already `float` values, so
their conversion is exact).  Whatever the math library is, the program ends with
the angle 3355443/2^26, while the initial angle plus `rotationSpeed` times the
sum of the frame durations is 13421773/2^28: the two rounded additions lose
one unit in the last place. -/
theorem rotatingTime_closed_form_fails :
    (∀ libm : glm.ScalarFns Float32,
      (runFrames (⟨libm, id⟩ : Platform Float32 Float32) (initialApp 0)
        [⟨GLFW_RELEASE, GLFW_RELEASE, Float32.ofRatio 1 60, false⟩,
          ⟨GLFW_RELEASE, GLFW_RELEASE, Float32.ofRatio 3 60, false⟩]).rotationAngle
        = Float32.ofRatio 3355443 (2 ^ 26))
    ∧ (Float32.ofRatio 3355443 (2 ^ 26)).toRat = 3355443 / 2 ^ 26
    ∧ (0 : Float32) ≤ Float32.ofRatio 1 60
    ∧ Float32.ofRatio 1 60 ≤ Float32.ofRatio 3 60
    ∧ (0 + 1 * rotatingTime (0 : ℚ)
        [⟨GLFW_RELEASE, GLFW_RELEASE, (Float32.ofRatio 1 60).toRat, false⟩,
          ⟨GLFW_RELEASE, GLFW_RELEASE, (Float32.ofRatio 3 60).toRat, false⟩]
        = 13421773 / 2 ^ 28)
    ∧ (3355443 / 2 ^ 26 : ℚ) ≠ 13421773 / 2 ^ 28 := by
  have h1 : Float32.ofRatio 1 60 = ⟨8947849 * 2 ^ 120⟩ := by decide
  have h3 : Float32.ofRatio 3 60 = ⟨13421773 * 2 ^ 121⟩ := by decide
  have hr : Float32.ofRatio 3355443 (2 ^ 26) = ⟨3355443 * 2 ^ 123⟩ := by decide
  refine ⟨fun libm => ?_, ?_, by decide, by decide, ?_, by norm_num⟩
  · rw [runFrames_rotationAngle _ (initialApp 0) _ rfl]
    simp only [accumulateRotation, initialApp, id, if_true]
    decide
  · rw [hr]
    norm_num [Float32.toRat]
  · rw [h1, h3]
    norm_num [rotatingTime, Float32.toRat]

/-- C10, amended: paused time is discarded, not caught up.  `lastTime` is
advanced in every frame, rotating or not.  From a reachable state (in
particular the initial one), for every sequence of frame timestamps and of
space-key readings, the angle after the frames is what results from applying
in frame order, in the program's own arithmetic, the update
`angle := angle + rotationSpeed * (t_i - t_(i-1))` for exactly the frames
whose space key was read as released, the `t_i` being the clock values
converted to `float`; the same holds for the frames the render loop executes.
Frames read as pressed leave the angle unchanged, and a rotating frame that
follows them adds only `rotationSpeed` times its own duration, measured from
the last paused frame. -/
theorem paused_time_discarded [Add α] [Sub α] [Mul α] [Div α] [Zero α] [One α]
    (P : Platform δ α) (t0 : α) (s : App α)
    (inputs paused : List (FrameInput δ)) (resume : FrameInput δ)
    (hs : Reachable P t0 s) (hpaused : ∀ inp ∈ paused, inp.space = GLFW_PRESS)
    (hresume : resume.space = GLFW_RELEASE) :
    (∀ inp : FrameInput δ, (frame P s inp).1.lastTime = P.toFloat inp.currentTime)
    ∧ (runFrames P (initialApp t0) inputs).rotationAngle
        = accumulateRotation P 1 0 t0 inputs
    ∧ (runFrames P s inputs).rotationAngle
        = accumulateRotation P s.rotationSpeed s.rotationAngle s.lastTime inputs
    ∧ (renderLoop P s inputs).1.rotationAngle
        = accumulateRotation P s.rotationSpeed s.rotationAngle s.lastTime
            (inputs.take (renderLoop P s inputs).2.length)
    ∧ (runFrames P s paused).rotationAngle = s.rotationAngle
    ∧ (runFrames P s (paused ++ [resume])).rotationAngle
        = s.rotationAngle
          + s.rotationSpeed
            * (P.toFloat resume.currentTime - (runFrames P s paused).lastTime) := by
  have hinv := reachable_pauseInv P hs
  have hp : (runFrames P s paused).rotationAngle = s.rotationAngle := by
    rw [runFrames_rotationAngle P s paused hinv]
    exact accumulateRotation_pressed P _ _ _ paused hpaused
  refine ⟨fun inp => frame_lastTime P s inp, ?_, runFrames_rotationAngle P s inputs hinv, ?_,
    hp, ?_⟩
  · exact runFrames_rotationAngle P (initialApp t0) inputs rfl
  · rw [renderLoop_eq_runFrames]
    exact runFrames_rotationAngle P s _ hinv
  · rw [runFrames_append, runFrames_rotationAngle P _ [resume] (runFrames_pauseInv P s paused hinv),
      hp, runFrames_rotationSpeed]
    simp [accumulateRotation, hresume]

/-- C10 amended, on a concrete run in exact arithmetic: frames at times 1, 3
and 7/2 after a start at time 0, the space key held during the second one.
The resume frame adds its own half second to the angle 1 and not the two
seconds spent paused. -/
theorem paused_time_discarded_witness :
    (runFrames ⟨⟨Real.cos, Real.sin, Real.sqrt⟩, id⟩ (initialApp (0 : ℝ))
        [⟨GLFW_RELEASE, GLFW_RELEASE, (1 : ℝ), false⟩, ⟨GLFW_RELEASE, GLFW_PRESS, 3, false⟩,
          ⟨GLFW_RELEASE, GLFW_RELEASE, 7 / 2, false⟩]).rotationAngle = 3 / 2 := by
  rw [(paused_time_discarded ⟨⟨Real.cos, Real.sin, Real.sqrt⟩, id⟩ 0 (initialApp 0)
      [⟨GLFW_RELEASE, GLFW_RELEASE, (1 : ℝ), false⟩, ⟨GLFW_RELEASE, GLFW_PRESS, 3, false⟩,
        ⟨GLFW_RELEASE, GLFW_RELEASE, 7 / 2, false⟩]
      [⟨GLFW_RELEASE, GLFW_PRESS, 3, false⟩] ⟨GLFW_RELEASE, GLFW_RELEASE, 7 / 2, false⟩
      Reachable.init (by simp) rfl).2.1]
  simp [accumulateRotation]
  norm_num

set_option maxRecDepth 100000 in
/-- C5 as stated fails in the program's binary32 arithmetic: a rotating frame
does not add exactly `rotationSpeed * deltaTime`.  Start at time 0 and run two
frames with the space key released, at the `float` timestamps nearest 1/60 and
3/60 (clock readings that are already `float` values, so their conversion is
exact).  The first leaves the angle 8947849/2^29.  In the second `isRotating`
is true, `deltaTime` and `rotationSpeed * deltaTime` are 17895696/2^29, and
the angle becomes 3355443/2^26, which is one unit of 2^-29 less than the
angle before plus `rotationSpeed * deltaTime`. -/
theorem rotating_growth_is_rounded :
    (∀ libm : glm.ScalarFns Float32,
      (frame (⟨libm, id⟩ : Platform Float32 Float32) (initialApp 0)
        ⟨GLFW_RELEASE, GLFW_RELEASE, Float32.ofRatio 1 60, false⟩).1
        = ⟨true, Float32.ofRatio 8947849 (2 ^ 29), 1, false, Float32.ofRatio 1 60, false⟩)
    ∧ (∀ libm : glm.ScalarFns Float32,
      (frame (⟨libm, id⟩ : Platform Float32 Float32)
        ⟨true, Float32.ofRatio 8947849 (2 ^ 29), 1, false, Float32.ofRatio 1 60, false⟩
        ⟨GLFW_RELEASE, GLFW_RELEASE, Float32.ofRatio 3 60, false⟩).1.rotationAngle
        = Float32.ofRatio 3355443 (2 ^ 26))
    ∧ (processInput
        (⟨true, Float32.ofRatio 8947849 (2 ^ 29), 1, false, Float32.ofRatio 1 60, false⟩ :
          App Float32) GLFW_RELEASE GLFW_RELEASE).isRotating = true
    ∧ (0 : Float32) ≤ Float32.ofRatio 3 60 - Float32.ofRatio 1 60
    ∧ Float32.ofRatio 3 60 - Float32.ofRatio 1 60 = Float32.ofRatio 17895696 (2 ^ 29)
    ∧ (1 : Float32) * (Float32.ofRatio 3 60 - Float32.ofRatio 1 60)
        = Float32.ofRatio 17895696 (2 ^ 29)
    ∧ (Float32.ofRatio 8947849 (2 ^ 29)).toRat = 8947849 / 2 ^ 29
    ∧ (Float32.ofRatio 17895696 (2 ^ 29)).toRat = 17895696 / 2 ^ 29
    ∧ (Float32.ofRatio 3355443 (2 ^ 26)).toRat = 3355443 / 2 ^ 26
    ∧ (3355443 / 2 ^ 26 : ℚ) ≠ 8947849 / 2 ^ 29 + 1 * (17895696 / 2 ^ 29) := by
  have ha : Float32.ofRatio 8947849 (2 ^ 29) = ⟨8947849 * 2 ^ 120⟩ := by decide
  have hd : Float32.ofRatio 17895696 (2 ^ 29) = ⟨17895696 * 2 ^ 120⟩ := by decide
  have hr : Float32.ofRatio 3355443 (2 ^ 26) = ⟨3355443 * 2 ^ 123⟩ := by decide
  refine ⟨fun libm => ?_, fun libm => ?_, by decide, by decide, by decide, by decide, ?_, ?_, ?_,
    by norm_num⟩
  · rw [frame_state]
    simp only [id, initialApp]
    decide
  · rw [frame_rotationAngle]
    simp only [id]
    decide
  · rw [ha]; norm_num [Float32.toRat]
  · rw [hd]; norm_num [Float32.toRat]
  · rw [hr]; norm_num [Float32.toRat]

/-- C5, amended: the angle invariant in the program's binary32 arithmetic.
In every reachable state `rotationSpeed` still has its initial value 1, and a
frame keeps it.  For a frame with non-negative `deltaTime` and arbitrary key
readings the angle does not decrease; when `isRotating` is true at the update
the new angle is the `float` sum `rotationAngle + rotationSpeed * deltaTime`
as the program computes it (one rounded product and one rounded sum), when it
is false the angle is unchanged, and nothing else is applied to it (no
wrapping or normalisation); and over any sequence of frames with non-negative
`deltaTime` values the angle does not decrease. -/
theorem angle_invariant (P : Platform δ Float32) (t0 : Float32) (s : App Float32)
    (inp : FrameInput δ) (inputs : List (FrameInput δ)) (hs : Reachable P t0 s)
    (hdt : 0 ≤ P.toFloat inp.currentTime - s.lastTime)
    (hts : List.Chain (fun a b => (0 : Float32) ≤ b - a) s.lastTime
      (inputs.map (fun i => P.toFloat i.currentTime))) :
    s.rotationSpeed = 1
    ∧ (frame P s inp).1.rotationSpeed = 1
    ∧ s.rotationAngle ≤ (frame P s inp).1.rotationAngle
    ∧ ((processInput s inp.escape inp.space).isRotating = true →
        (frame P s inp).1.rotationAngle
          = s.rotationAngle + s.rotationSpeed * (P.toFloat inp.currentTime - s.lastTime))
    ∧ ((processInput s inp.escape inp.space).isRotating = false →
        (frame P s inp).1.rotationAngle = s.rotationAngle)
    ∧ s.rotationAngle ≤ (runFrames P s inputs).rotationAngle := by
  have hsp := reachable_rotationSpeed P hs
  have hfl := reachable_angle_isFloat P hs
  have hnn : 0 ≤ s.rotationSpeed := by rw [hsp]; exact Float32.zero_le_one_float
  refine ⟨hsp, by rw [frame_rotationSpeed]; exact hsp,
    frame_rotationAngle_mono P s inp hfl hnn hdt, fun h => ?_, fun h => ?_,
    runFrames_rotationAngle_mono P s inputs hfl hnn hts⟩
  · rw [frame_rotationAngle, h]; rfl
  · rw [frame_rotationAngle, h]; rfl

set_option maxRecDepth 100000 in
/-- C5 amended, on a concrete frame in binary32: from the initial state at
time 0 a frame at time 7 with the space key released has the non-negative
`deltaTime` 7 and takes the angle from 0 to 7, past `2 * pi` without being
reduced. -/
theorem angle_invariant_witness :
    (0 : Float32) ≤ Float32.ofRatio 7 1 - 0
    ∧ (Float32.ofRatio 7 1).toRat = 7
    ∧ ∀ libm : glm.ScalarFns Float32,
      (frame (⟨libm, id⟩ : Platform Float32 Float32) (initialApp 0)
        ⟨GLFW_RELEASE, GLFW_RELEASE, Float32.ofRatio 7 1, false⟩).1.rotationAngle
        = Float32.ofRatio 7 1 := by
  have hv : Float32.ofRatio 7 1 = ⟨7 * 2 ^ 149⟩ := by decide
  refine ⟨by decide, by rw [hv]; norm_num [Float32.toRat], fun libm => ?_⟩
  rw [(angle_invariant (⟨libm, id⟩ : Platform Float32 Float32) 0 (initialApp 0)
      ⟨GLFW_RELEASE, GLFW_RELEASE, Float32.ofRatio 7 1, false⟩
      [⟨GLFW_RELEASE, GLFW_RELEASE, Float32.ofRatio 7 1, false⟩]
      Reachable.init (by simp only [id, initialApp]; decide)
      (by simp only [List.map, List.chain_cons, List.Chain.nil, id, initialApp, and_true]
          decide)).2.2.2.1 rfl]
  simp only [id, initialApp]
  decide

/-! ## Termination -/

/-- C6: escape terminates after the current frame.  When `processInput` reads
the escape key as pressed, whatever the space key is, the should-close flag
is set when it returns; the rest of that iteration is executed (the trace
holds the complete loop body: `lastTime` takes the new clock value, the angle
update runs, the transform is built from the updated angle); and the render
loop stops after it, whatever inputs follow. -/
theorem escape_terminates_after_frame [Add α] [Sub α] [Mul α] [Div α] [Zero α] [One α]
    (P : Platform δ α) (s : App α)
    (earlier : List (FrameInput δ)) (inp : FrameInput δ) (rest : List (FrameInput δ))
    (hesc : inp.escape = GLFW_PRESS) (hopen : s.windowShouldClose = false) :
    (processInput s inp.escape inp.space).windowShouldClose = true
    ∧ renderLoop P s (inp :: rest)
        = ((frame P s inp).1, [⟨s, inp, (frame P s inp).1, (frame P s inp).2⟩])
    ∧ (frame P s inp).1.windowShouldClose = true
    ∧ (frame P s inp).1.lastTime = P.toFloat inp.currentTime
    ∧ (frame P s inp).1.rotationAngle
        = (updateRotation (processInput s inp.escape inp.space)
            (P.toFloat inp.currentTime - s.lastTime)).rotationAngle
    ∧ (frame P s inp).2
        = glm.rotate P.toScalarFns (glm.mat4.ofScalar 1) (frame P s inp).1.rotationAngle
            ⟨0, 0, 1⟩
    ∧ renderLoop P s (earlier ++ inp :: rest) = renderLoop P s (earlier ++ [inp]) := by
  have hclose : (frame P s inp).1.windowShouldClose = true := by
    rw [frame_windowShouldClose, hesc]; rfl
  refine ⟨by rw [processInput_windowShouldClose, hesc]; rfl, ?_, hclose, frame_lastTime P s inp,
    ?_, ?_, ?_⟩
  · rw [renderLoop_open P s inp rest hopen, renderLoop_closed P _ rest hclose]
  · rw [frame_rotationAngle]
    unfold updateRotation
    split <;> simp [processInput_rotationAngle, processInput_rotationSpeed]
  · exact frame_transform P s inp
  · clear hopen
    induction earlier generalizing s with
    | nil =>
      have hclose : (frame P s inp).1.windowShouldClose = true := by
        rw [frame_windowShouldClose, hesc]; rfl
      cases hc : s.windowShouldClose with
      | true => rw [List.nil_append, List.nil_append, renderLoop_closed P s _ hc,
          renderLoop_closed P s _ hc]
      | false =>
        rw [List.nil_append, List.nil_append, renderLoop_open P s inp rest hc,
          renderLoop_open P s inp [] hc, renderLoop_closed P _ rest hclose,
          renderLoop_closed P _ [] hclose]
    | cons e es ih =>
      cases hc : s.windowShouldClose with
      | true => rw [renderLoop_closed P s _ hc, renderLoop_closed P s _ hc]
      | false =>
        rw [List.cons_append, List.cons_append, renderLoop_open P s e _ hc,
          renderLoop_open P s e _ hc, ih (frame P s e).1]
        rw [frame_windowShouldClose, hesc]; rfl

/-- C6 on a concrete run: escape is read as pressed in the first frame (with
the space key released, at time 1/2); two more inputs follow.  Only that
frame is executed, and it has advanced the angle to 1/2. -/
theorem escape_terminates_after_frame_witness :
    (renderLoop ⟨⟨Real.cos, Real.sin, Real.sqrt⟩, id⟩ (initialApp (0 : ℝ))
        [⟨GLFW_PRESS, GLFW_RELEASE, 1 / 2, false⟩, ⟨GLFW_RELEASE, GLFW_RELEASE, 1, false⟩,
          ⟨GLFW_RELEASE, GLFW_RELEASE, 2, false⟩]).2.length = 1
    ∧ (renderLoop ⟨⟨Real.cos, Real.sin, Real.sqrt⟩, id⟩ (initialApp (0 : ℝ))
        [⟨GLFW_PRESS, GLFW_RELEASE, 1 / 2, false⟩, ⟨GLFW_RELEASE, GLFW_RELEASE, 1, false⟩,
          ⟨GLFW_RELEASE, GLFW_RELEASE, 2, false⟩]).1.rotationAngle = 1 / 2 := by
  have h := escape_terminates_after_frame ⟨⟨Real.cos, Real.sin, Real.sqrt⟩, id⟩
    (initialApp (0 : ℝ)) []
    ⟨GLFW_PRESS, GLFW_RELEASE, 1 / 2, false⟩
    [⟨GLFW_RELEASE, GLFW_RELEASE, 1, false⟩, ⟨GLFW_RELEASE, GLFW_RELEASE, 2, false⟩] rfl rfl
  rw [h.2.1]
  refine ⟨rfl, ?_⟩
  rw [frame_rotationAngle]
  simp [processInput, initialApp]

/-- C7: the termination signal is one-way and idempotent.  No call of
`processInput` clears a should-close flag that is set; a call with escape
read as pressed on a state whose flag is set leaves it set, and a second such
call gives the same state as the first; and in every run of the render loop
`processInput` raises the flag at most once, exactly once when escape is read
as pressed in an executed frame. -/
theorem close_signal_one_way [Add α] [Sub α] [Mul α] [Div α] [Zero α] [One α]
    (P : Platform δ α) (u s : App α)
    (e k : KeyState) (inputs : List (FrameInput δ)) (hset : u.windowShouldClose = true) :
    (processInput u e k).windowShouldClose = true
    ∧ (processInput u GLFW_PRESS k).windowShouldClose = true
    ∧ processInput (processInput s GLFW_PRESS k) GLFW_PRESS k = processInput s GLFW_PRESS k
    ∧ List.countP FrameRecord.raisedByInput (renderLoop P s inputs).2 ≤ 1
    ∧ ((∃ r ∈ (renderLoop P s inputs).2, r.input.escape = GLFW_PRESS) →
        List.countP FrameRecord.raisedByInput (renderLoop P s inputs).2 = 1) := by
  refine ⟨?_, ?_, ?_, (renderLoop_raised P s inputs).1, (renderLoop_raised P s inputs).2⟩
  · rw [processInput_windowShouldClose, hset]; simp
  · rw [processInput_windowShouldClose]; rfl
  · unfold processInput glfwSetWindowShouldClose
    cases k <;> cases hp : s.isSpacePressed <;> simp [hp]

/-- C7 on a concrete run: a state whose flag is set keeps it through a call
that reads both keys as released, and in a run where escape is read as pressed
in the second frame the flag is raised once. -/
theorem close_signal_one_way_witness :
    (processInput (⟨true, 0, 1, false, 0, true⟩ : App ℝ) GLFW_RELEASE
        GLFW_RELEASE).windowShouldClose = true
    ∧ List.countP FrameRecord.raisedByInput
        (renderLoop ⟨⟨Real.cos, Real.sin, Real.sqrt⟩, id⟩ (initialApp (0 : ℝ))
          [⟨GLFW_RELEASE, GLFW_RELEASE, 1, false⟩, ⟨GLFW_PRESS, GLFW_RELEASE, 2, false⟩,
            ⟨GLFW_PRESS, GLFW_RELEASE, 3, false⟩]).2 = 1 := by
  have h := close_signal_one_way ⟨⟨Real.cos, Real.sin, Real.sqrt⟩, id⟩
    (⟨true, 0, 1, false, 0, true⟩ : App ℝ) (initialApp (0 : ℝ)) GLFW_RELEASE GLFW_RELEASE
    [⟨GLFW_RELEASE, GLFW_RELEASE, 1, false⟩, ⟨GLFW_PRESS, GLFW_RELEASE, 2, false⟩,
      ⟨GLFW_PRESS, GLFW_RELEASE, 3, false⟩] rfl
  refine ⟨h.1, h.2.2.2.2 ?_⟩
  rw [renderLoop_open _ _ _ _ rfl, renderLoop_open _ _ _ _ (by rw [frame_windowShouldClose]; rfl)]
  exact ⟨_, List.mem_cons_of_mem _ (List.mem_cons_self _ _), rfl⟩

/-! ## Setup failures -/

/-- C8 as stated fails at the three shader failure points.  With the window
created and the GL loader initialised, a vertex-shader compilation failure, a
fragment-shader compilation failure and a link failure each print their
diagnostic, after which `main` goes on into the render loop: here it executes
a frame and returns 0 once escape is read as pressed. -/
theorem shader_failure_enters_renderLoop :
    (main ⟨⟨Real.cos, Real.sin, Real.sqrt⟩, id⟩
        (⟨true, true, false, "bad vertex shader", true, "", true, "", 0⟩ : SetupInput ℝ)
        [⟨GLFW_PRESS, GLFW_RELEASE, 1, false⟩]).output
      = ["ERROR::SHADER::VERTEX::COMPILATION_FAILED\nbad vertex shader"]
    ∧ (main ⟨⟨Real.cos, Real.sin, Real.sqrt⟩, id⟩
        (⟨true, true, false, "bad vertex shader", true, "", true, "", 0⟩ : SetupInput ℝ)
        [⟨GLFW_PRESS, GLFW_RELEASE, 1, false⟩]).reachedRenderLoop = true
    ∧ (main ⟨⟨Real.cos, Real.sin, Real.sqrt⟩, id⟩
        (⟨true, true, false, "bad vertex shader", true, "", true, "", 0⟩ : SetupInput ℝ)
        [⟨GLFW_PRESS, GLFW_RELEASE, 1, false⟩]).frames.length = 1
    ∧ (main ⟨⟨Real.cos, Real.sin, Real.sqrt⟩, id⟩
        (⟨true, true, false, "bad vertex shader", true, "", true, "", 0⟩ : SetupInput ℝ)
        [⟨GLFW_PRESS, GLFW_RELEASE, 1, false⟩]).exitCode = some 0
    ∧ (main ⟨⟨Real.cos, Real.sin, Real.sqrt⟩, id⟩
        (⟨true, true, true, "", false, "bad fragment shader", true, "", 0⟩ : SetupInput ℝ)
        [⟨GLFW_PRESS, GLFW_RELEASE, 1, false⟩]).reachedRenderLoop = true
    ∧ (main ⟨⟨Real.cos, Real.sin, Real.sqrt⟩, id⟩
        (⟨true, true, true, "", false, "bad fragment shader", true, "", 0⟩ : SetupInput ℝ)
        [⟨GLFW_PRESS, GLFW_RELEASE, 1, false⟩]).exitCode = some 0
    ∧ (main ⟨⟨Real.cos, Real.sin, Real.sqrt⟩, id⟩
        (⟨true, true, true, "", true, "", false, "link error", 0⟩ : SetupInput ℝ)
        [⟨GLFW_PRESS, GLFW_RELEASE, 1, false⟩]).reachedRenderLoop = true
    ∧ (main ⟨⟨Real.cos, Real.sin, Real.sqrt⟩, id⟩
        (⟨true, true, true, "", true, "", false, "link error", 0⟩ : SetupInput ℝ)
        [⟨GLFW_PRESS, GLFW_RELEASE, 1, false⟩]).exitCode = some 0 := by
  refine ⟨?_, ?_, ?_, ?_, ?_, ?_, ?_, ?_⟩ <;>
    simp [main, renderLoop, initialApp, frame_windowShouldClose]

/-- C8, amended: a failure of window creation, or of the GL-loader
initialisation after the window was created, makes `main` print its
diagnostic and return -1 without reaching the render loop.  Once both have
succeeded, `main` always reaches the render loop and runs it from the initial
state; a failure of the vertex-shader compilation, of the fragment-shader
compilation or of the program linking only adds its diagnostic, which starts
with the failure tag and carries the info log, to the output. -/
theorem setup_failure_handling [Add α] [Sub α] [Mul α] [Div α] [Zero α] [One α]
    (P : Platform δ α) (setup : SetupInput δ)
    (inputs : List (FrameInput δ)) :
    (setup.windowCreated = false →
        main P setup inputs = ⟨["Failed to create GLFW window"], false, [], some (-1)⟩)
    ∧ (setup.windowCreated = true → setup.gladLoaded = false →
        main P setup inputs = ⟨["Failed to initialize GLAD"], false, [], some (-1)⟩)
    ∧ (setup.windowCreated = true → setup.gladLoaded = true →
        (main P setup inputs).reachedRenderLoop = true
        ∧ (main P setup inputs).frames
            = (renderLoop P (initialApp (P.toFloat setup.startTime)) inputs).2
        ∧ (main P setup inputs).exitCode ≠ some (-1)
        ∧ (setup.vertexCompiled = false →
            ("ERROR::SHADER::VERTEX::COMPILATION_FAILED\n" ++ setup.vertexInfoLog)
              ∈ (main P setup inputs).output)
        ∧ (setup.fragmentCompiled = false →
            ("ERROR::SHADER::FRAGMENT::COMPILATION_FAILED\n" ++ setup.fragmentInfoLog)
              ∈ (main P setup inputs).output)
        ∧ (setup.programLinked = false →
            ("ERROR::SHADER::PROGRAM::LINKING_FAILED\n" ++ setup.programInfoLog)
              ∈ (main P setup inputs).output)) := by
  refine ⟨fun h => ?_, fun h1 h2 => ?_, fun h1 h2 => ⟨?_, ?_, ?_, fun h => ?_, fun h => ?_,
    fun h => ?_⟩⟩
  · simp [main, h]
  · simp [main, h1, h2]
  · simp [main, h1, h2]
  · simp [main, h1, h2]
  · have hcode : (main P setup inputs).exitCode
        = if (renderLoop P (initialApp (P.toFloat setup.startTime)) inputs).1.windowShouldClose
          then some 0 else none := by
      simp [main, h1, h2]
    rw [hcode]
    split <;> simp
  · simp only [main, h1, h2, h]
    cases setup.fragmentCompiled <;> cases setup.programLinked <;> simp
  · simp only [main, h1, h2, h]
    cases setup.vertexCompiled <;> cases setup.programLinked <;> simp
  · simp only [main, h1, h2, h]
    cases setup.vertexCompiled <;> cases setup.fragmentCompiled <;> simp

/-- C8 amended, on concrete outcomes: a failed window creation gives the
diagnostic and -1 with no frame run, and a failed vertex-shader compilation
leaves its diagnostic in the output of a run that reaches the render loop. -/
theorem setup_failure_handling_witness :
    main ⟨⟨Real.cos, Real.sin, Real.sqrt⟩, id⟩
        (⟨false, true, true, "", true, "", true, "", 0⟩ : SetupInput ℝ)
        [⟨GLFW_RELEASE, GLFW_RELEASE, 1, false⟩]
      = ⟨["Failed to create GLFW window"], false, [], some (-1)⟩
    ∧ (main ⟨⟨Real.cos, Real.sin, Real.sqrt⟩, id⟩
        (⟨true, true, false, "bad vertex shader", true, "", true, "", 0⟩ : SetupInput ℝ)
        [⟨GLFW_RELEASE, GLFW_RELEASE, 1, false⟩]).reachedRenderLoop = true :=
  ⟨(setup_failure_handling ⟨⟨Real.cos, Real.sin, Real.sqrt⟩, id⟩
      (⟨false, true, true, "", true, "", true, "", 0⟩ : SetupInput ℝ)
      [⟨GLFW_RELEASE, GLFW_RELEASE, 1, false⟩]).1 rfl,
   ((setup_failure_handling ⟨⟨Real.cos, Real.sin, Real.sqrt⟩, id⟩
      (⟨true, true, false, "bad vertex shader", true, "", true, "", 0⟩ : SetupInput ℝ)
      [⟨GLFW_RELEASE, GLFW_RELEASE, 1, false⟩]).2.2 rfl rfl).1⟩

/-! ## The transform -/

/-- C9: the transform output.  In every frame the matrix submitted as the
`transform` uniform is `glm::rotate` applied to the 4x4 identity, the
post-update `rotationAngle` and the axis (0,0,1), so it depends on the current
angle only and not on an earlier matrix.  Over the reals it is the pure Z
rotation: columns `(cos a, sin a, 0, 0)`, `(-sin a, cos a, 0, 0)`,
`(0, 0, 1, 0)`, `(0, 0, 0, 1)`, that is the upper-left block
`[[cos a, -sin a], [sin a, cos a]]` in row/column notation, third and fourth
diagonal entries 1 and every other entry 0. -/
theorem transform_is_z_rotation [Add α] [Sub α] [Mul α] [Div α] [Zero α] [One α]
    (P : Platform δ α) (s : App α)
    (inp : FrameInput δ) (r : App ℝ) (rinp : FrameInput ℝ) :
    (frame P s inp).2
      = glm.rotate P.toScalarFns (glm.mat4.ofScalar 1) (frame P s inp).1.rotationAngle ⟨0, 0, 1⟩
    ∧ (glm.mat4.ofScalar 1 : glm.mat4 α)
        = ⟨⟨1, 0, 0, 0⟩, ⟨0, 1, 0, 0⟩, ⟨0, 0, 1, 0⟩, ⟨0, 0, 0, 1⟩⟩
    ∧ (frame ⟨⟨Real.cos, Real.sin, Real.sqrt⟩, id⟩ r rinp).2
        = ⟨⟨Real.cos (frame ⟨⟨Real.cos, Real.sin, Real.sqrt⟩, id⟩ r rinp).1.rotationAngle,
            Real.sin (frame ⟨⟨Real.cos, Real.sin, Real.sqrt⟩, id⟩ r rinp).1.rotationAngle, 0, 0⟩,
           ⟨-Real.sin (frame ⟨⟨Real.cos, Real.sin, Real.sqrt⟩, id⟩ r rinp).1.rotationAngle,
            Real.cos (frame ⟨⟨Real.cos, Real.sin, Real.sqrt⟩, id⟩ r rinp).1.rotationAngle, 0, 0⟩,
           ⟨0, 0, 1, 0⟩, ⟨0, 0, 0, 1⟩⟩
    ∧ (frame ⟨⟨Real.cos, Real.sin, Real.sqrt⟩, id⟩ r rinp).2.entry 0 0
        = Real.cos (frame ⟨⟨Real.cos, Real.sin, Real.sqrt⟩, id⟩ r rinp).1.rotationAngle
    ∧ (frame ⟨⟨Real.cos, Real.sin, Real.sqrt⟩, id⟩ r rinp).2.entry 0 1
        = -Real.sin (frame ⟨⟨Real.cos, Real.sin, Real.sqrt⟩, id⟩ r rinp).1.rotationAngle
    ∧ (frame ⟨⟨Real.cos, Real.sin, Real.sqrt⟩, id⟩ r rinp).2.entry 1 0
        = Real.sin (frame ⟨⟨Real.cos, Real.sin, Real.sqrt⟩, id⟩ r rinp).1.rotationAngle
    ∧ (frame ⟨⟨Real.cos, Real.sin, Real.sqrt⟩, id⟩ r rinp).2.entry 1 1
        = Real.cos (frame ⟨⟨Real.cos, Real.sin, Real.sqrt⟩, id⟩ r rinp).1.rotationAngle := by
  have hz : ∀ a : ℝ, glm.rotate ⟨Real.cos, Real.sin, Real.sqrt⟩ (glm.mat4.ofScalar 1) a ⟨0, 0, 1⟩
      = ⟨⟨Real.cos a, Real.sin a, 0, 0⟩, ⟨-Real.sin a, Real.cos a, 0, 0⟩,
         ⟨0, 0, 1, 0⟩, ⟨0, 0, 0, 1⟩⟩ := by
    intro a
    simp [glm.rotate, glm.normalize, glm.inversesqrt, glm.dot, glm.vec3.scale, glm.vec3.lscale,
      glm.vec4.scale, glm.vec4.add, glm.mat4.ofScalar]
  refine ⟨frame_transform P s inp, rfl, ?_, ?_, ?_, ?_, ?_⟩
  · rw [frame_transform, hz]
  · rw [frame_transform, hz]; rfl
  · rw [frame_transform, hz]; rfl
  · rw [frame_transform, hz]; rfl
  · rw [frame_transform, hz]; rfl

end CTriangle
